import Mathlib

/-!
Verification of the binding-abstraction layer in `src/bindings.rs` of
`pdfium-render`: the boolean/result translator, the bitmap buffer-mutation
helper `FPDFBitmap_SetBuffer`, the UTF-16LE wide-text marshaling utilities,
the pixel-format conversions, and the `*_str` helper operations of the
`PdfiumLibraryBindings` trait.

Machine integers: `FPDF_BOOL` is a C `int` and may be negative, so it is
embedded as `Int`. Byte buffers are lists of `Nat` (each entry a byte value);
bitmap dimensions reported by the engine are nonnegative and are embedded as
`Nat`. No arithmetic in the modelled code can overflow on the values the
claims quantify over, so no explicit modular reduction is needed.

The pixel and UTF-16LE utilities live in `crate::utils`, whose source is not
part of the extract; they are modelled from the spec (sections 4.4 and 8),
as marked on each definition.
-/

namespace PdfiumRender

/-- Embedding of the C-style boolean type `FPDF_BOOL` (a C `int`). -/
abbrev FPDF_BOOL := Int

/-- Embedding of `PdfiumInternalError` from `crate::error`: the generic
internal-error kind used by `to_result`. -/
inductive PdfiumInternalError
  | Unknown
  deriving DecidableEq, Repr

/-- Embedding of `PdfiumError` from `crate::error`, restricted to the variant
constructed inside `bindings.rs`. -/
inductive PdfiumError
  | PdfiumLibraryInternalError (err : PdfiumInternalError)
  deriving DecidableEq, Repr

/-- Embeds `PdfiumLibraryBindings::TRUE` (bindings.rs:120): the canonical
C-style boolean integer value 1, indicating `true`. -/
def TRUE : FPDF_BOOL := 1

/-- Embeds `PdfiumLibraryBindings::FALSE` (bindings.rs:127): the canonical
C-style boolean integer value 0, indicating `false`. -/
def FALSE : FPDF_BOOL := 0

/-- Embeds `PdfiumLibraryBindings::is_true` (bindings.rs:135):
`bool != self.FALSE()`. -/
def is_true (b : FPDF_BOOL) : Bool := b ≠ FALSE

/-- Embeds `PdfiumLibraryBindings::bool_to_pdfium` (bindings.rs:141):
`if bool { self.TRUE() } else { self.FALSE() }`. -/
def bool_to_pdfium (b : Bool) : FPDF_BOOL := if b then TRUE else FALSE

/-- Embeds `PdfiumLibraryBindings::to_result` (bindings.rs:156): `Ok(())`
when `is_true`, otherwise `Err(PdfiumError::PdfiumLibraryInternalError(
PdfiumInternalError::Unknown))`. Rust's `Result<(), PdfiumError>` is embedded
as `Except PdfiumError Unit`. -/
def to_result (b : FPDF_BOOL) : Except PdfiumError Unit :=
  if is_true b then Except.ok ()
  else Except.error (PdfiumError.PdfiumLibraryInternalError PdfiumInternalError.Unknown)

/-- Engine-side state of one bitmap: its row stride in bytes, its height in
rows, and its pixel data buffer. The engine allocates the buffer with exactly
`stride * height` bytes; that well-formedness is taken as a hypothesis where
a claim needs it. -/
structure Bitmap where
  stride : Nat
  height : Nat
  data : List Nat
  deriving DecidableEq, Repr

/-- Embeds `PdfiumLibraryBindings::FPDFBitmap_GetStride` for the modelled
bitmap state. -/
def FPDFBitmap_GetStride (bmp : Bitmap) : Nat := bmp.stride

/-- Embeds `PdfiumLibraryBindings::FPDFBitmap_GetHeight` for the modelled
bitmap state. -/
def FPDFBitmap_GetHeight (bmp : Bitmap) : Nat := bmp.height

/-- Embeds `PdfiumLibraryBindings::FPDFBitmap_GetBuffer` for the modelled
bitmap state: the pixel data the returned pointer addresses. -/
def FPDFBitmap_GetBuffer (bmp : Bitmap) : List Nat := bmp.data

/-- Embeds `PdfiumLibraryBindings::FPDFBitmap_SetBuffer` (bindings.rs:2083):
computes `buffer_length = stride * height`, refuses (returning `false`, state
unchanged) when the supplied buffer's length differs, and otherwise copies
the supplied buffer over the first `buffer_length` bytes of the bitmap's
buffer and returns `true`. The result pairs the returned boolean with the
bitmap state after the call. -/
def FPDFBitmap_SetBuffer (bmp : Bitmap) (buffer : List Nat) : Bool × Bitmap :=
  let buffer_length := FPDFBitmap_GetStride bmp * FPDFBitmap_GetHeight bmp
  if buffer.length ≠ buffer_length then
    (false, bmp)
  else
    (true, { bmp with data := buffer ++ (FPDFBitmap_GetBuffer bmp).drop buffer_length })

/-- C1: `FPDFBitmap_SetBuffer` returns `false` and leaves the bitmap's pixel
buffer completely unchanged when the supplied buffer's length differs from
`stride * height`, and returns `true` and replaces every byte of the pixel
buffer with the supplied buffer when the lengths are equal (for a well-formed
bitmap, whose buffer holds exactly `stride * height` bytes). -/
theorem C1_FPDFBitmap_SetBuffer_spec (bmp : Bitmap) (buffer : List Nat)
    (hwf : bmp.data.length = bmp.stride * bmp.height) :
    (buffer.length ≠ bmp.stride * bmp.height →
      FPDFBitmap_SetBuffer bmp buffer = (false, bmp)) ∧
    (buffer.length = bmp.stride * bmp.height →
      FPDFBitmap_SetBuffer bmp buffer = (true, { bmp with data := buffer })) := by
  constructor
  · intro hne
    simp [FPDFBitmap_SetBuffer, FPDFBitmap_GetStride, FPDFBitmap_GetHeight, hne]
  · intro heq
    have hdrop : (FPDFBitmap_GetBuffer bmp).drop (bmp.stride * bmp.height) = [] :=
      List.drop_eq_nil_of_le (by simp [FPDFBitmap_GetBuffer, hwf])
    simp [FPDFBitmap_SetBuffer, FPDFBitmap_GetStride, FPDFBitmap_GetHeight, heq, hdrop]

/-- Witness for C1 at a concrete bitmap: stride 2, height 1, data `[1, 2]`;
a length-1 buffer is refused unchanged, a length-2 buffer replaces the data. -/
theorem C1_FPDFBitmap_SetBuffer_spec_witness :
    FPDFBitmap_SetBuffer ⟨2, 1, [1, 2]⟩ [5] = (false, ⟨2, 1, [1, 2]⟩) ∧
    FPDFBitmap_SetBuffer ⟨2, 1, [1, 2]⟩ [3, 4] = (true, ⟨2, 1, [3, 4]⟩) :=
  ⟨(C1_FPDFBitmap_SetBuffer_spec ⟨2, 1, [1, 2]⟩ [5] (by decide)).1 (by decide),
   (C1_FPDFBitmap_SetBuffer_spec ⟨2, 1, [1, 2]⟩ [3, 4] (by decide)).2 (by decide)⟩

/-- C2: `to_result` returns a failure outcome if and only if its input equals
the canonical `false` sentinel; the failure carries the generic internal-error
kind `PdfiumInternalError::Unknown`; every other input yields the success
outcome. -/
theorem C2_to_result_spec (v : FPDF_BOOL) :
    ((to_result v).isOk = false ↔ v = FALSE) ∧
    (v = FALSE →
      to_result v =
        Except.error (PdfiumError.PdfiumLibraryInternalError PdfiumInternalError.Unknown)) ∧
    (v ≠ FALSE → to_result v = Except.ok ()) := by
  refine ⟨?_, ?_, ?_⟩
  · by_cases h : v = FALSE <;> simp [to_result, is_true, h, Except.isOk, Except.toBool]
  · intro h; simp [to_result, is_true, h]
  · intro h; simp [to_result, is_true, h]

/-- Witness for C2 at the concrete inputs 0 (the canonical `false` sentinel)
and −1. -/
theorem C2_to_result_spec_witness :
    to_result 0 =
      Except.error (PdfiumError.PdfiumLibraryInternalError PdfiumInternalError.Unknown) ∧
    to_result (-1) = Except.ok () :=
  ⟨(C2_to_result_spec 0).2.1 (by decide), (C2_to_result_spec (-1)).2.2 (by decide)⟩

/-- C3: `is_true` inverts `bool_to_pdfium` on every Rust `bool`;
`bool_to_pdfium false` is exactly the canonical `false` sentinel `FALSE`; and
`is_true` accepts every non-`FALSE` value as `true`, including negative
values. -/
theorem C3_bool_roundtrip_spec :
    (∀ b : Bool, is_true (bool_to_pdfium b) = b) ∧
    bool_to_pdfium false = FALSE ∧
    (∀ v : FPDF_BOOL, v ≠ FALSE → is_true v = true) := by
  refine ⟨?_, rfl, ?_⟩
  · intro b; cases b <;> decide
  · intro v h; simp [is_true, h]

/-- Witness for C3 at the concrete non-`FALSE` value −7. -/
theorem C3_bool_roundtrip_spec_witness : is_true (-7) = true :=
  C3_bool_roundtrip_spec.2.2 (-7) (by decide)

/-- C10: the canonical C-style boolean values are concretely fixed: `TRUE()`
returns exactly 1 and `FALSE()` returns exactly 0, so `bool_to_pdfium` only
ever emits 0 or 1. -/
theorem C10_canonical_booleans_spec :
    TRUE = 1 ∧ FALSE = 0 ∧
    ∀ b : Bool, bool_to_pdfium b = 0 ∨ bool_to_pdfium b = 1 := by
  refine ⟨rfl, rfl, ?_⟩
  intro b; cases b
  · exact Or.inl rfl
  · exact Or.inr rfl

/-- Modelled from the spec: the missing `crate::utils::utf16le` encoder behind
`get_pdfium_utf16le_bytes_from_str`. Spec 4.4: "Platform text → Wide-Text
Buffer: encode each code point, append the two-byte terminator." This is the
UTF-16 encoding of one code point: one code unit below `0x10000`, a surrogate
pair above. -/
def encodeUtf16CodePoint (c : Nat) : List Nat :=
  if c < 0x10000 then [c]
  else [0xD800 + (c - 0x10000) / 0x400, 0xDC00 + (c - 0x10000) % 0x400]

/-- Serializes one 16-bit code unit as two little-endian bytes (spec 3:
"a fixed 2-byte-per-unit little-endian form"). -/
def utf16UnitToLeBytes (u : Nat) : List Nat := [u % 256, u / 256]

/-- Serializes a code-unit sequence as little-endian bytes. -/
def unitsToLeBytes (us : List Nat) : List Nat := (us.map utf16UnitToLeBytes).flatten

/-- Modelled from the spec: the missing `crate::utils::utf16le` function
`get_pdfium_utf16le_bytes_from_str` behind the trait method of the same name
(bindings.rs:168). Platform text is embedded as its list of code points;
the encoder emits each code point's UTF-16LE bytes and appends the two-byte
zero terminator. -/
def get_pdfium_utf16le_bytes_from_str (s : List Nat) : List Nat :=
  unitsToLeBytes ((s.map encodeUtf16CodePoint).flatten) ++ [0, 0]

/-- Reads 16-bit little-endian code units from a byte sequence, stopping at
the two-byte zero terminator or at the end of the buffer; fails on an odd
trailing byte (spec 4.4). -/
def collectUtf16Units : List Nat → Option (List Nat)
  | [] => some []
  | [_] => none
  | lo :: hi :: rest =>
    if lo + 256 * hi = 0 then some []
    else (collectUtf16Units rest).map (fun us => (lo + 256 * hi) :: us)

/-- Decodes a UTF-16 code-unit sequence into code points; fails on an
unpaired surrogate (spec 4.4: "fails to extract a value when the byte
sequence contains ... invalid encoding"). -/
def decodeUtf16Units : List Nat → Option (List Nat)
  | [] => some []
  | u :: rest =>
    if u < 0xD800 ∨ 0xE000 ≤ u then
      (decodeUtf16Units rest).map (fun cs => u :: cs)
    else if u < 0xDC00 then
      match rest with
      | [] => none
      | v :: rest2 =>
        if 0xDC00 ≤ v ∧ v < 0xE000 then
          (decodeUtf16Units rest2).map
            (fun cs => (0x10000 + (u - 0xD800) * 0x400 + (v - 0xDC00)) :: cs)
        else none
    else none

/-- Modelled from the spec: the missing `crate::utils::utf16le` decoder behind
the trait method `get_string_from_pdfium_utf16le_bytes` (bindings.rs:175).
Spec 4.4: "Wide-Text Buffer → platform text: decode until the terminator or
buffer end; fails to extract a value when the byte sequence contains an odd
trailing byte or invalid encoding, returning no value rather than garbage." -/
def get_string_from_pdfium_utf16le_bytes (buffer : List Nat) : Option (List Nat) :=
  (collectUtf16Units buffer).bind decodeUtf16Units

/-- A Unicode scalar value: a code point below `0x110000` that is not a
surrogate. Platform text (Rust `&str`) consists exactly of these. -/
def isScalarValue (c : Nat) : Prop := c < 0x110000 ∧ ¬ (0xD800 ≤ c ∧ c < 0xE000)

instance (c : Nat) : Decidable (isScalarValue c) := by
  unfold isScalarValue
  infer_instance

/-- Reading one serialized nonzero code unit off the front of a byte buffer. -/
theorem collectUtf16Units_unit_cons (u : Nat) (hne : u ≠ 0)
    (bs : List Nat) :
    collectUtf16Units (utf16UnitToLeBytes u ++ bs) =
      (collectUtf16Units bs).map (fun us => u :: us) := by
  simp only [utf16UnitToLeBytes, List.cons_append, List.nil_append, collectUtf16Units,
    Nat.mod_add_div u 256]
  simp [hne]

/-- Unit collection consumes exactly the units before the terminator and
ignores everything after it. -/
theorem collectUtf16Units_units_term (us : List Nat)
    (h : ∀ u ∈ us, u < 0x10000 ∧ u ≠ 0) (tail : List Nat) :
    collectUtf16Units (unitsToLeBytes us ++ 0 :: 0 :: tail) = some us := by
  induction us with
  | nil => simp [unitsToLeBytes, collectUtf16Units]
  | cons u us ih =>
    have hu := h u (List.mem_cons_self u us)
    have hrest : ∀ v ∈ us, v < 0x10000 ∧ v ≠ 0 :=
      fun v hv => h v (List.mem_cons_of_mem u hv)
    simp only [unitsToLeBytes, List.map_cons, List.flatten_cons, List.append_assoc]
    rw [collectUtf16Units_unit_cons u hu.2]
    rw [show (List.map utf16UnitToLeBytes us).flatten = unitsToLeBytes us from rfl]
    rw [ih hrest]
    rfl

/-- Unit collection of a terminator-free buffer runs to the end of the
buffer. -/
theorem collectUtf16Units_units_end (us : List Nat)
    (h : ∀ u ∈ us, u < 0x10000 ∧ u ≠ 0) :
    collectUtf16Units (unitsToLeBytes us) = some us := by
  induction us with
  | nil => simp [unitsToLeBytes, collectUtf16Units]
  | cons u us ih =>
    have hu := h u (List.mem_cons_self u us)
    have hrest : ∀ v ∈ us, v < 0x10000 ∧ v ≠ 0 :=
      fun v hv => h v (List.mem_cons_of_mem u hv)
    simp only [unitsToLeBytes, List.map_cons, List.flatten_cons]
    rw [collectUtf16Units_unit_cons u hu.2]
    rw [show (List.map utf16UnitToLeBytes us).flatten = unitsToLeBytes us from rfl]
    rw [ih hrest]
    rfl

/-- Unit collection fails on a buffer whose unit region ends in one odd
trailing byte. -/
theorem collectUtf16Units_units_odd (us : List Nat)
    (h : ∀ u ∈ us, u < 0x10000 ∧ u ≠ 0) (b : Nat) :
    collectUtf16Units (unitsToLeBytes us ++ [b]) = none := by
  induction us with
  | nil => simp [unitsToLeBytes, collectUtf16Units]
  | cons u us ih =>
    have hu := h u (List.mem_cons_self u us)
    have hrest : ∀ v ∈ us, v < 0x10000 ∧ v ≠ 0 :=
      fun v hv => h v (List.mem_cons_of_mem u hv)
    simp only [unitsToLeBytes, List.map_cons, List.flatten_cons, List.append_assoc]
    rw [collectUtf16Units_unit_cons u hu.2]
    rw [show (List.map utf16UnitToLeBytes us).flatten = unitsToLeBytes us from rfl]
    rw [ih hrest]
    rfl

/-- One decoding step on a non-surrogate code unit at the head. -/
theorem decodeUtf16Units_cons_valid (u : Nat) (hcond : u < 0xD800 ∨ 0xE000 ≤ u)
    (rest : List Nat) :
    decodeUtf16Units (u :: rest) = (decodeUtf16Units rest).map (fun cs => u :: cs) := by
  cases rest with
  | nil =>
    simp only [decodeUtf16Units]
    rw [if_pos hcond]
  | cons v rest2 =>
    simp only [decodeUtf16Units]
    rw [if_pos hcond]

/-- One decoding step on a well-formed surrogate pair at the head. -/
theorem decodeUtf16Units_cons_pair (u v : Nat) (hu1 : ¬ (u < 0xD800 ∨ 0xE000 ≤ u))
    (hu2 : u < 0xDC00) (hv : 0xDC00 ≤ v ∧ v < 0xE000) (rest : List Nat) :
    decodeUtf16Units (u :: v :: rest) =
      (decodeUtf16Units rest).map
        (fun cs => (0x10000 + (u - 0xD800) * 0x400 + (v - 0xDC00)) :: cs) := by
  simp only [decodeUtf16Units]
  rw [if_neg hu1, if_pos hu2, if_pos hv]

/-- Decoding pulls one encoded scalar value off the front of a code-unit
sequence. -/
theorem decodeUtf16Units_encodeScalar (c : Nat) (h : isScalarValue c) (us : List Nat) :
    decodeUtf16Units (encodeUtf16CodePoint c ++ us) =
      (decodeUtf16Units us).map (fun cs => c :: cs) := by
  obtain ⟨hlt, hsurr⟩ := h
  by_cases hc : c < 0x10000
  · have hcond : c < 0xD800 ∨ 0xE000 ≤ c := by omega
    simp only [encodeUtf16CodePoint, if_pos hc, List.cons_append, List.nil_append]
    exact decodeUtf16Units_cons_valid c hcond us
  · have hno : ¬ (0xD800 + (c - 0x10000) / 0x400 < 0xD800 ∨
        0xE000 ≤ 0xD800 + (c - 0x10000) / 0x400) := by omega
    have hhi : 0xD800 + (c - 0x10000) / 0x400 < 0xDC00 := by omega
    have hlo : 0xDC00 ≤ 0xDC00 + (c - 0x10000) % 0x400 ∧
        0xDC00 + (c - 0x10000) % 0x400 < 0xE000 := by omega
    have hrec : 0x10000 + (0xD800 + (c - 0x10000) / 0x400 - 0xD800) * 0x400 +
        (0xDC00 + (c - 0x10000) % 0x400 - 0xDC00) = c := by omega
    simp only [encodeUtf16CodePoint, if_neg hc, List.cons_append, List.nil_append]
    rw [decodeUtf16Units_cons_pair _ _ hno hhi hlo us]
    simp only [hrec]

/-- Every code unit emitted for a nonzero scalar value is a nonzero 16-bit
value. -/
theorem encodeUtf16CodePoint_units (c : Nat) (h : isScalarValue c) (hne : c ≠ 0) :
    ∀ u ∈ encodeUtf16CodePoint c, u < 0x10000 ∧ u ≠ 0 := by
  obtain ⟨hlt, hsurr⟩ := h
  intro u hu
  by_cases hc : c < 0x10000
  · simp only [encodeUtf16CodePoint, if_pos hc, List.mem_singleton] at hu
    subst hu
    exact ⟨hc, hne⟩
  · simp only [encodeUtf16CodePoint, if_neg hc, List.mem_cons, List.mem_singleton,
      List.not_mem_nil, or_false] at hu
    obtain h1 | h1 := hu
    · exact ⟨by omega, by omega⟩
    · exact ⟨by omega, by omega⟩

/-- Decoding the concatenated encodings of a sequence of scalar values
recovers the sequence. -/
theorem decodeUtf16Units_encoded (s : List Nat) (h : ∀ c ∈ s, isScalarValue c) :
    decodeUtf16Units ((s.map encodeUtf16CodePoint).flatten) = some s := by
  induction s with
  | nil => rfl
  | cons c s ih =>
    simp only [List.map_cons, List.flatten_cons]
    rw [decodeUtf16Units_encodeScalar c (h c (List.mem_cons_self c s))]
    rw [ih (fun d hd => h d (List.mem_cons_of_mem c hd))]
    rfl

/-- C4 (amended): for every platform string whose code points are Unicode
scalar values — platform text has no unpaired surrogates — none of which is
the NUL code point `U+0000`, decoding the wide-text buffer produced by
encoding the string yields exactly the string back. The NUL exclusion is
forced: the encoder's appended terminator is indistinguishable from an
encoded interior NUL, and the decoder stops at the first zero unit. -/
theorem C4_utf16le_roundtrip_amended (s : List Nat)
    (h : ∀ c ∈ s, isScalarValue c ∧ c ≠ 0) :
    get_string_from_pdfium_utf16le_bytes (get_pdfium_utf16le_bytes_from_str s) = some s := by
  have hunits : ∀ u ∈ (s.map encodeUtf16CodePoint).flatten, u < 0x10000 ∧ u ≠ 0 := by
    intro u hu
    rw [List.mem_flatten] at hu
    obtain ⟨l, hl, hul⟩ := hu
    rw [List.mem_map] at hl
    obtain ⟨c, hc, rfl⟩ := hl
    exact encodeUtf16CodePoint_units c (h c hc).1 (h c hc).2 u hul
  unfold get_string_from_pdfium_utf16le_bytes get_pdfium_utf16le_bytes_from_str
  rw [collectUtf16Units_units_term _ hunits []]
  exact decodeUtf16Units_encoded s (fun c hc => (h c hc).1)

/-- Witness for the amended C4 at the concrete string `"Hi\u{10000}"`
(code points `0x48`, `0x69`, and the supplementary-plane `0x10000`). -/
theorem C4_utf16le_roundtrip_amended_witness :
    get_string_from_pdfium_utf16le_bytes
        (get_pdfium_utf16le_bytes_from_str [0x48, 0x69, 0x10000]) =
      some [0x48, 0x69, 0x10000] :=
  C4_utf16le_roundtrip_amended [0x48, 0x69, 0x10000] (by decide)

/-- C4 counterexample: the one-code-point string `"\u{0}"` contains no
unpaired surrogate, yet decoding its encoding yields the empty string, not
the string itself: the decoder stops at the first zero unit, which here is
the encoded NUL rather than the appended terminator. -/
theorem C4_utf16le_roundtrip_counterexample :
    isScalarValue 0 ∧
    get_string_from_pdfium_utf16le_bytes (get_pdfium_utf16le_bytes_from_str [0]) =
      some [] ∧
    get_string_from_pdfium_utf16le_bytes (get_pdfium_utf16le_bytes_from_str [0]) ≠
      some [0] := by
  refine ⟨by decide, by decide, by decide⟩

/-- C8: `get_string_from_pdfium_utf16le_bytes` fails with the no-value
outcome on invalid input and otherwise decodes up to the terminator or the
buffer end. Writing the buffer as a serialized sequence of nonzero 16-bit
code units followed by the rest: (1) a buffer whose unit region ends in one
odd trailing byte decodes to `none`; (2) a terminated buffer whose unit
sequence is not valid UTF-16 (for example, an unpaired surrogate) decodes to
`none`; (3) a terminated buffer with a valid unit sequence decodes to exactly
that sequence's text, ignoring everything after the terminator; (4) an
unterminated buffer is decoded to the end of the buffer. -/
theorem C8_decode_failure_spec :
    (∀ us, (∀ u ∈ us, u < 0x10000 ∧ u ≠ 0) → ∀ b : Nat,
      get_string_from_pdfium_utf16le_bytes (unitsToLeBytes us ++ [b]) = none) ∧
    (∀ us, (∀ u ∈ us, u < 0x10000 ∧ u ≠ 0) → decodeUtf16Units us = none →
      get_string_from_pdfium_utf16le_bytes (unitsToLeBytes us ++ 0 :: 0 :: []) = none) ∧
    (∀ us cs tail, (∀ u ∈ us, u < 0x10000 ∧ u ≠ 0) → decodeUtf16Units us = some cs →
      get_string_from_pdfium_utf16le_bytes (unitsToLeBytes us ++ 0 :: 0 :: tail) = some cs) ∧
    (∀ us, (∀ u ∈ us, u < 0x10000 ∧ u ≠ 0) →
      get_string_from_pdfium_utf16le_bytes (unitsToLeBytes us) = decodeUtf16Units us) := by
  refine ⟨?_, ?_, ?_, ?_⟩
  · intro us h b
    unfold get_string_from_pdfium_utf16le_bytes
    rw [collectUtf16Units_units_odd us h b]
    rfl
  · intro us h hdec
    unfold get_string_from_pdfium_utf16le_bytes
    rw [collectUtf16Units_units_term us h []]
    exact hdec
  · intro us cs tail h hdec
    unfold get_string_from_pdfium_utf16le_bytes
    rw [collectUtf16Units_units_term us h tail]
    exact hdec
  · intro us h
    unfold get_string_from_pdfium_utf16le_bytes
    rw [collectUtf16Units_units_end us h]
    rfl

/-- Witness for C8 at concrete buffers: `"a"` plus one odd byte; a lone high
surrogate, terminated; `"a"`, terminated, with trailing junk; `"b"` with no
terminator. -/
theorem C8_decode_failure_spec_witness :
    get_string_from_pdfium_utf16le_bytes (unitsToLeBytes [0x61] ++ [5]) = none ∧
    get_string_from_pdfium_utf16le_bytes (unitsToLeBytes [0xD800] ++ 0 :: 0 :: []) = none ∧
    get_string_from_pdfium_utf16le_bytes (unitsToLeBytes [0x61] ++ 0 :: 0 :: [7]) =
      some [0x61] ∧
    get_string_from_pdfium_utf16le_bytes (unitsToLeBytes [0x62]) = decodeUtf16Units [0x62] :=
  ⟨C8_decode_failure_spec.1 [0x61] (by decide) 5,
   C8_decode_failure_spec.2.1 [0xD800] (by decide) (by decide),
   C8_decode_failure_spec.2.2.1 [0x61] [0x61] [7] (by decide) (by decide),
   C8_decode_failure_spec.2.2.2 [0x62] (by decide)⟩

/-- Modelled from the spec: the missing `crate::utils::pixels` function
`unaligned_bgr_to_rgba` behind the trait method `bgr_to_rgba`
(bindings.rs:182). Spec 4.4: byte-for-byte reordering/expansion with no
interpretation of pixel meaning; three-channel inputs synthesize full
opacity (byte value 255) as the fourth channel. -/
def bgr_to_rgba : List Nat → List Nat
  | b :: g :: r :: rest => r :: g :: b :: 255 :: bgr_to_rgba rest
  | _ => []

/-- Modelled from the spec: the missing `crate::utils::pixels` function
`bgra_to_rgba` behind the trait method of the same name (bindings.rs:189).
Spec 4.4: byte-for-byte reordering; four-channel inputs preserve the fourth
channel. -/
def bgra_to_rgba : List Nat → List Nat
  | b :: g :: r :: a :: rest => r :: g :: b :: a :: bgra_to_rgba rest
  | _ => []

/-- Modelled from the spec: the missing `crate::utils::pixels` function
`rgba_to_bgra` behind the trait method of the same name (bindings.rs:203). -/
def rgba_to_bgra : List Nat → List Nat
  | r :: g :: b :: a :: rest => b :: g :: r :: a :: rgba_to_bgra rest
  | _ => []

/-- Length of the three-to-four channel expansion on 3-aligned input. -/
theorem bgr_to_rgba_length : ∀ p : List Nat, p.length % 3 = 0 →
    3 * (bgr_to_rgba p).length = 4 * p.length
  | [], _ => rfl
  | [_], h => by simp only [List.length_cons, List.length_nil] at h; omega
  | [_, _], h => by simp only [List.length_cons, List.length_nil] at h; omega
  | _ :: _ :: _ :: rest, h => by
    have hrest : rest.length % 3 = 0 := by
      simp only [List.length_cons] at h
      omega
    have ih := bgr_to_rgba_length rest hrest
    simp only [bgr_to_rgba, List.length_cons]
    omega

/-- Every byte of the three-to-four channel expansion at an index congruent
to 3 modulo 4 — each synthesized alpha byte — is 255. -/
theorem bgr_to_rgba_opacity : ∀ (p : List Nat) (i : Nat), i % 4 = 3 →
    i < (bgr_to_rgba p).length → (bgr_to_rgba p).getD i 0 = 255
  | [], _, _, hlt => by simp [bgr_to_rgba] at hlt
  | [_], _, _, hlt => by simp [bgr_to_rgba] at hlt
  | [_, _], _, _, hlt => by simp [bgr_to_rgba] at hlt
  | _ :: _ :: _ :: _, 0, hmod, _ => by omega
  | _ :: _ :: _ :: _, 1, hmod, _ => by omega
  | _ :: _ :: _ :: _, 2, hmod, _ => by omega
  | _ :: _ :: _ :: _, 3, _, _ => by simp [bgr_to_rgba]
  | b :: g :: r :: rest, i + 4, hmod, hlt => by
    have hlt2 : i < (bgr_to_rgba rest).length := by
      simp only [bgr_to_rgba, List.length_cons] at hlt
      omega
    have ih := bgr_to_rgba_opacity rest i (by omega) hlt2
    simp only [bgr_to_rgba, List.getD_cons_succ]
    exact ih

/-- C6: for every 3-channel pixel buffer p (length a multiple of 3),
`bgr_to_rgba p` has length exactly 4/3 times the length of p (stated
multiplicatively over the naturals), and every 4th byte — each synthesized
alpha byte, at the indices congruent to 3 modulo 4 — equals the full-opacity
value 255. -/
theorem C6_bgr_to_rgba_spec (p : List Nat) (h : p.length % 3 = 0) :
    3 * (bgr_to_rgba p).length = 4 * p.length ∧
    ∀ i, i % 4 = 3 → i < (bgr_to_rgba p).length → (bgr_to_rgba p).getD i 0 = 255 :=
  ⟨bgr_to_rgba_length p h, fun i hmod hlt => bgr_to_rgba_opacity p i hmod hlt⟩

/-- Witness for C6 at the concrete two-pixel buffer `[10, 20, 30, 40, 50, 60]`,
checking the second alpha byte (index 7). -/
theorem C6_bgr_to_rgba_spec_witness :
    3 * (bgr_to_rgba [10, 20, 30, 40, 50, 60]).length =
      4 * ([10, 20, 30, 40, 50, 60] : List Nat).length ∧
    (bgr_to_rgba [10, 20, 30, 40, 50, 60]).getD 7 0 = 255 :=
  ⟨(C6_bgr_to_rgba_spec [10, 20, 30, 40, 50, 60] (by decide)).1,
   (C6_bgr_to_rgba_spec [10, 20, 30, 40, 50, 60] (by decide)).2 7 (by decide) (by decide)⟩

/-- Applying the four-channel swap twice, `rgba_to_bgra` first, recovers a
4-aligned buffer. -/
theorem bgra_to_rgba_rgba_to_bgra : ∀ p : List Nat, p.length % 4 = 0 →
    bgra_to_rgba (rgba_to_bgra p) = p
  | [], _ => rfl
  | [_], h => by simp only [List.length_cons, List.length_nil] at h; omega
  | [_, _], h => by simp only [List.length_cons, List.length_nil] at h; omega
  | [_, _, _], h => by simp only [List.length_cons, List.length_nil] at h; omega
  | _ :: _ :: _ :: _ :: rest, h => by
    have hrest : rest.length % 4 = 0 := by
      simp only [List.length_cons] at h
      omega
    have ih := bgra_to_rgba_rgba_to_bgra rest hrest
    simp only [rgba_to_bgra, bgra_to_rgba, ih]

/-- Applying the four-channel swap twice, `bgra_to_rgba` first, recovers a
4-aligned buffer. -/
theorem rgba_to_bgra_bgra_to_rgba : ∀ p : List Nat, p.length % 4 = 0 →
    rgba_to_bgra (bgra_to_rgba p) = p
  | [], _ => rfl
  | [_], h => by simp only [List.length_cons, List.length_nil] at h; omega
  | [_, _], h => by simp only [List.length_cons, List.length_nil] at h; omega
  | [_, _, _], h => by simp only [List.length_cons, List.length_nil] at h; omega
  | _ :: _ :: _ :: _ :: rest, h => by
    have hrest : rest.length % 4 = 0 := by
      simp only [List.length_cons] at h
      omega
    have ih := rgba_to_bgra_bgra_to_rgba rest hrest
    simp only [rgba_to_bgra, bgra_to_rgba, ih]

/-- C7: on every well-formed 4-channel pixel buffer (length a multiple of 4)
the channel swap is an involution: `bgra_to_rgba (rgba_to_bgra p) = p` and
`rgba_to_bgra (bgra_to_rgba p) = p`. -/
theorem C7_channel_swap_involution (p : List Nat) (h : p.length % 4 = 0) :
    bgra_to_rgba (rgba_to_bgra p) = p ∧ rgba_to_bgra (bgra_to_rgba p) = p :=
  ⟨bgra_to_rgba_rgba_to_bgra p h, rgba_to_bgra_bgra_to_rgba p h⟩

/-- Witness for C7 at the concrete one-pixel buffer `[1, 2, 3, 4]`. -/
theorem C7_channel_swap_involution_witness :
    bgra_to_rgba (rgba_to_bgra [1, 2, 3, 4]) = [1, 2, 3, 4] ∧
    rgba_to_bgra (bgra_to_rgba [1, 2, 3, 4]) = [1, 2, 3, 4] :=
  C7_channel_swap_involution [1, 2, 3, 4] (by decide)

/-- Handle types of the Contract: engine-owned capability tokens with no
structure visible to the caller. -/
abbrev FPDF_DOCUMENT := Nat

/-- Handle to a bookmark. -/
abbrev FPDF_BOOKMARK := Nat

/-- Handle to a page object. -/
abbrev FPDF_PAGEOBJECT := Nat

/-- The primitive wide-string operations of the `PdfiumLibraryBindings`
trait that the claims name `*_str` helpers for. A backend is any realization
of these operations; an `FPDF_WIDESTRING` argument is embedded as the byte
buffer its pointer addresses, so the callee receives the whole buffer for
the duration of the call. -/
structure PdfiumLibraryBindings where
  FPDFBookmark_Find : FPDF_DOCUMENT → List Nat → FPDF_BOOKMARK
  FPDFText_SetText : FPDF_PAGEOBJECT → List Nat → FPDF_BOOL

/-- Embeds `PdfiumLibraryBindings::FPDFBookmark_Find_str` (bindings.rs:3969):
`self.FPDFBookmark_Find(document, get_pdfium_utf16le_bytes_from_str(title)
.as_ptr() as FPDF_WIDESTRING)`; the temporary buffer lives until the end of
that full call expression. -/
def FPDFBookmark_Find_str (self : PdfiumLibraryBindings) (document : FPDF_DOCUMENT)
    (title : List Nat) : FPDF_BOOKMARK :=
  self.FPDFBookmark_Find document (get_pdfium_utf16le_bytes_from_str title)

/-- Embeds `PdfiumLibraryBindings::FPDFText_SetText_str` (bindings.rs:4871):
`self.FPDFText_SetText(text_object, get_pdfium_utf16le_bytes_from_str(text)
.as_ptr() as FPDF_WIDESTRING)`. -/
def FPDFText_SetText_str (self : PdfiumLibraryBindings) (text_object : FPDF_PAGEOBJECT)
    (text : List Nat) : FPDF_BOOL :=
  self.FPDFText_SetText text_object (get_pdfium_utf16le_bytes_from_str text)

/-- Follows the spec's words (4.1, text helpers), to be compared with the
source embedding: "accept platform text, perform the Wide-Text Buffer
conversion internally, then call the primitive operation". -/
def FPDFBookmark_Find_str_asSpecified (self : PdfiumLibraryBindings)
    (document : FPDF_DOCUMENT) (title : List Nat) : FPDF_BOOKMARK :=
  self.FPDFBookmark_Find document (get_pdfium_utf16le_bytes_from_str title)

/-- Follows the spec's words (4.1, text helpers) for `FPDFText_SetText_str`. -/
def FPDFText_SetText_str_asSpecified (self : PdfiumLibraryBindings)
    (text_object : FPDF_PAGEOBJECT) (text : List Nat) : FPDF_BOOL :=
  self.FPDFText_SetText text_object (get_pdfium_utf16le_bytes_from_str text)

/-- C5: for every backend, all handle arguments, and every platform string,
each of the named `*_str` helpers returns exactly the result of the
corresponding primitive wide-string operation applied to the same handle and
the UTF-16LE wide-text buffer encoding of the string, and coincides with the
spec-side description of the helper. The buffer-lifetime half of the claim is
carried by the embedding: the primitive receives the encoded buffer itself as
a value, so the whole buffer is available to it for the entire call. -/
theorem C5_str_helpers_refinement (self : PdfiumLibraryBindings)
    (document : FPDF_DOCUMENT) (title : List Nat)
    (text_object : FPDF_PAGEOBJECT) (text : List Nat) :
    (FPDFBookmark_Find_str self document title =
        self.FPDFBookmark_Find document (get_pdfium_utf16le_bytes_from_str title) ∧
      FPDFBookmark_Find_str self document title =
        FPDFBookmark_Find_str_asSpecified self document title) ∧
    (FPDFText_SetText_str self text_object text =
        self.FPDFText_SetText text_object (get_pdfium_utf16le_bytes_from_str text) ∧
      FPDFText_SetText_str self text_object text =
        FPDFText_SetText_str_asSpecified self text_object text) :=
  ⟨⟨rfl, rfl⟩, ⟨rfl, rfl⟩⟩

end PdfiumRender
